import Mathlib

set_option maxHeartbeats 1000000

namespace SharedRingIpc

/-- Result of one call to the helper sem_wait_intr (src/ipc/shared_ring.cpp,
lines 199-203): the helper retries the wait while errno is EINTR, so the only
observable outcomes are ok (sem_wait returned 0 and the semaphore counter was
decremented) and err (sem_wait returned -1 with a non-signal error and the
counter is untouched). -/
inductive SemRes where
  | ok
  | err
deriving DecidableEq

/-- RingHeader stored at offset 0 of the mapped region: magic, version,
slot_count, slot_size, head, tail, each a 32-bit field. -/
structure RingHeader where
  magic : Nat
  version : Nat
  slot_count : Nat
  slot_size : Nat
  head : Nat
  tail : Nat
deriving DecidableEq

/-- One slot of the slot area: a 32-bit length field followed by slot_size
payload bytes (bytes modelled as Nat). -/
structure Slot where
  len : Nat
  payload : List Nat
deriving DecidableEq

/-- The state a SharedRing handle can read and mutate: the member copies
slot_count_ and slot_size_, the mapped header hdr_, the slot area behind
slots_start_, and the current values of the three named semaphores. -/
structure SharedRing where
  slot_count : Nat
  slot_size : Nat
  hdr : RingHeader
  slots : List Slot
  semFree : Nat
  semFilled : Nat
  semMutex : Nat
deriving DecidableEq

/-- View of slot number idx of the slot area (the source reads the bytes at
slots_start_ + idx * (4 + slot_size_)). -/
def sread (slots : List Slot) (idx : Nat) : Slot :=
  slots.getD idx { len := 0, payload := [] }

/-- The two memcpy calls of write_message on slot idx: store len in the
length field and copy the first len bytes of data into the payload; payload
bytes past len keep their previous value. -/
def writeSlot (slots : List Slot) (idx len : Nat) (data : List Nat) : List Slot :=
  slots.set idx
    { len := len, payload := data.take len ++ (sread slots idx).payload.drop len }

/-- SharedRing::write_message of src/ipc/shared_ring.cpp (lines 210-228).
fOut and mOut are the outcomes of the sem_wait_intr calls on the free and
mutex semaphores; a wait with outcome ok decrements the counter, a wait with
outcome err leaves it unchanged and makes the function return false. On the
success path the message is stored at tail, tail advances modulo
hdr_->slot_count, the mutex is posted back and filled is posted. -/
def write_message (fOut mOut : SemRes) (r : SharedRing) (data : List Nat) (len : Nat) :
    Bool × SharedRing :=
  if r.slot_size < len then (false, r)
  else if fOut = SemRes.err then (false, r)
  else
    let r1 : SharedRing := { r with semFree := r.semFree - 1 }
    if mOut = SemRes.err then (false, r1)
    else
      (true,
       { r1 with
         slots := writeSlot r1.slots r1.hdr.tail len data
         hdr := { r1.hdr with tail := (r1.hdr.tail + 1) % r1.hdr.slot_count }
         semMutex := r1.semMutex - 1 + 1
         semFilled := r1.semFilled + 1 })

/-- SharedRing::read_message of src/ipc/shared_ring.cpp (lines 235-252).
out is the caller vector, returned unchanged on the failure paths; on the
success path out is resized to the stored length and receives the payload
bytes, head advances modulo hdr_->slot_count, the mutex is posted back and
free is posted. -/
def read_message (fOut mOut : SemRes) (r : SharedRing) (out : List Nat) :
    Bool × SharedRing × List Nat :=
  if fOut = SemRes.err then (false, r, out)
  else
    let r1 : SharedRing := { r with semFilled := r.semFilled - 1 }
    if mOut = SemRes.err then (false, r1, out)
    else
      (true,
       { r1 with
         hdr := { r1.hdr with head := (r1.hdr.head + 1) % r1.hdr.slot_count }
         semMutex := r1.semMutex - 1 + 1
         semFree := r1.semFree + 1 },
       (sread r1.slots r1.hdr.head).payload.take (sread r1.slots r1.hdr.head).len)

/-- SharedRing::write_message of src/unnamed/part_001 (lines 133-152). The
guard there reads: if (!sem_wait_intr(sem_free_)) return false. Since
sem_wait_intr returns 0 on success, the function returns false precisely
when the wait on free SUCCEEDED (and the token was consumed), and continues
when that wait FAILED; the result of the wait on mutex is ignored, but a
successful mutex wait still decrements the counter and sem_post(mutex) is
always executed afterwards. -/
def write_message_p1 (fOut mOut : SemRes) (r : SharedRing) (data : List Nat) (len : Nat) :
    Bool × SharedRing :=
  if r.slot_size < len then (false, r)
  else if fOut = SemRes.ok then (false, { r with semFree := r.semFree - 1 })
  else
    let r1 : SharedRing :=
      { r with semMutex := if mOut = SemRes.ok then r.semMutex - 1 else r.semMutex }
    (true,
     { r1 with
       slots := writeSlot r1.slots r1.hdr.tail len data
       hdr := { r1.hdr with tail := (r1.hdr.tail + 1) % r1.hdr.slot_count }
       semMutex := r1.semMutex + 1
       semFilled := r1.semFilled + 1 })

/-- SharedRing::read_message of src/unnamed/part_001 (lines 154-168), with
the same inverted guard on the wait for filled: the function returns false
exactly when that wait succeeded, and proceeds when it failed; the mutex
wait result is ignored. -/
def read_message_p1 (fOut mOut : SemRes) (r : SharedRing) (out : List Nat) :
    Bool × SharedRing × List Nat :=
  if fOut = SemRes.ok then (false, { r with semFilled := r.semFilled - 1 }, out)
  else
    let r1 : SharedRing :=
      { r with semMutex := if mOut = SemRes.ok then r.semMutex - 1 else r.semMutex }
    (true,
     { r1 with
       hdr := { r1.hdr with head := (r1.hdr.head + 1) % r1.hdr.slot_count }
       semMutex := r1.semMutex + 1
       semFree := r1.semFree + 1 },
     (sread r1.slots r1.hdr.head).payload.take (sread r1.slots r1.hdr.head).len)

/-- sizeof(RingHeader) per the declaration in shared_ring.h (found in
src/unnamed/part_000, lines 121-129): six uint32_t fields (24 bytes) plus
uint8_t reserved[28], with no extra padding since every member is 4-byte
aligned or smaller, giving 52 bytes. The theorems below use this constant
only as a summand of the computed region size. -/
def headerSize : Nat := 52

/-- The state produced by create_or_open with create = true when every OS
call succeeds: header initialised with magic 0xA1B2C3D4, version 1, the
requested counts and zeroed head and tail; the slot area zeroed; the free,
filled and mutex semaphores created with initial values slot_count, 0, 1. -/
def createRing (slot_count slot_size : Nat) : SharedRing :=
  { slot_count := slot_count
    slot_size := slot_size
    hdr := { magic := 0xA1B2C3D4, version := 1, slot_count := slot_count,
             slot_size := slot_size, head := 0, tail := 0 }
    slots := List.replicate slot_count { len := 0, payload := List.replicate slot_size 0 }
    semFree := slot_count
    semFilled := 0
    semMutex := 1 }

/-- create_or_open with create = true: osOk abstracts the joint success of
shm_open, ftruncate, mmap and the three sem_open calls. No validation of
slot_count or slot_size happens anywhere on this path. -/
def create_or_open_create (osOk : Bool) (slot_count slot_size : Nat) : Option SharedRing :=
  if osOk then some (createRing slot_count slot_size) else none

/-- Attach branch of SharedRing::init_map in src/ipc/shared_ring.cpp (lines
121-132): map_size_ = sizeof(RingHeader) + slot_count * (4 + slot_size) is
computed from the caller-supplied values, the region size is queried with
fstat and the branch fails (shm too small) when the region is smaller than
map_size_; afterwards the magic check decides. Returns the value init_map
returns. -/
def init_map_attach (slot_count slot_size regionSize : Nat) (magicOk : Bool) : Bool :=
  if regionSize < headerSize + slot_count * (4 + slot_size) then false
  else magicOk

/-- Attach branch of SharedRing::init_map in src/unnamed/part_001 (lines
75-82): only regionSize < sizeof(RingHeader) makes the branch fail; the
computed total for the requested counts is not enforced. -/
def init_map_attach_p1 (slot_count slot_size regionSize : Nat) (magicOk : Bool) : Bool :=
  if regionSize < headerSize then false
  else magicOk

/-- create_or_open with create = false in src/ipc/shared_ring.cpp: when
init_map fails, create_or_open returns nullptr (modelled as none) without a
handle; otherwise the handle construction is abstracted by semOk (the
sem_open retry loop) and rest (the fields adopted from the region). -/
def create_or_open_attach (slot_count slot_size regionSize : Nat) (magicOk semOk : Bool)
    (rest : SharedRing) : Option SharedRing :=
  if init_map_attach slot_count slot_size regionSize magicOk then
    if semOk then some rest else none
  else none

/-- The character replacement done by sanitize_sem in src/ipc/shared_ring.cpp
(lines 25-29): a slash becomes an underscore, everything else is kept. -/
def sanChar (c : Char) : Char :=
  if c = '/' then '_' else c

/-- sanitize_sem of src/ipc/shared_ring.cpp (identical in src/unnamed/part_001):
replace every slash of the base name by an underscore, then prepend one
slash. Strings are modelled through their character lists. -/
def sanitize_sem (base : String) : String :=
  String.mk ('/' :: base.data.map sanChar)

/-- Name of the free semaphore, as derived in create_or_open:
sanitize_sem(name + "_free"). -/
def sem_free_name (name : String) : String :=
  sanitize_sem (name ++ "_free")

/-- Name of the filled semaphore, as derived in create_or_open. -/
def sem_filled_name (name : String) : String :=
  sanitize_sem (name ++ "_filled")

/-- Name of the mutex semaphore, as derived in create_or_open. -/
def sem_mutex_name (name : String) : String :=
  sanitize_sem (name ++ "_mutex")

/-- One call issued against a ring handle by the demo programs: a
write_message of message m (with len = m.length) or a read_message. -/
inductive RingOp where
  | write (m : List Nat)
  | read
deriving DecidableEq

/-- One successful call in the single-process execution the spec quantifies
over. A blocking sem_wait returns with outcome ok exactly when the counter
is positive, since nobody can post while the call is in flight, so a call
whose waits all succeed is a call whose needed counters are all positive; a
write is additionally guarded by len ≤ slot_size, checked before any wait.
none stands for a call that would block forever or fail. A read returns the
bytes placed into the out vector. -/
def step (r : SharedRing) : RingOp → Option (SharedRing × Option (List Nat))
  | RingOp.write m =>
      if m.length ≤ r.slot_size ∧ 1 ≤ r.semFree ∧ 1 ≤ r.semMutex then
        some ((write_message SemRes.ok SemRes.ok r m m.length).2, none)
      else none
  | RingOp.read =>
      if 1 ≤ r.semFilled ∧ 1 ≤ r.semMutex then
        some ((read_message SemRes.ok SemRes.ok r []).2.1,
              some (read_message SemRes.ok SemRes.ok r []).2.2)
      else none

/-- Run a list of calls against a handle, collecting every payload returned
by a read, in order; none as soon as one call cannot succeed. -/
def run (r : SharedRing) : List RingOp → Option (SharedRing × List (List Nat))
  | [] => some (r, [])
  | op :: rest =>
      match step r op with
      | none => none
      | some (r1, o) =>
          match run r1 rest with
          | none => none
          | some (r2, outs) => some (r2, o.toList ++ outs)

/-- The messages written by a list of calls, in program order. -/
def writesOf : List RingOp → List (List Nat)
  | [] => []
  | RingOp.write m :: rest => m :: writesOf rest
  | RingOp.read :: rest => writesOf rest

/-- The number of read calls in a list of calls. -/
def readsCount : List RingOp → Nat
  | [] => 0
  | RingOp.write _ :: rest => readsCount rest
  | RingOp.read :: rest => 1 + readsCount rest

/-- Record of one registered participant kept by the discovery daemon
(struct ClientInfo in src/shm_ipc_with_SD/app/producer.cc): the client
socket path and the shared memory name or "-". -/
structure ClientInfo where
  sock : String
  shm : String
deriving DecidableEq

/-- The whitespace test applied by istringstream extraction: space, tab,
newline or carriage return (the only whitespace that can occur in the ASCII
datagrams of this protocol). -/
def isWS (c : Char) : Bool :=
  c = ' ' || c = '\t' || c = '\n' || c = '\r'

/-- Whitespace tokenization performed by reading an istringstream with the
extraction operator: maximal runs of non-whitespace characters, in order,
with no empty tokens. -/
def tokenize (s : String) : List String :=
  let f : Char → List Char × List (List Char) → List Char × List (List Char) :=
    fun c acc =>
      if isWS c then ([], if acc.1 = [] then acc.2 else acc.1 :: acc.2)
      else (c :: acc.1, acc.2)
  let r := s.data.foldr f ([], [])
  (if r.1 = [] then r.2 else r.1 :: r.2).map String.mk

/-- registry[key] of the daemon's std::map: the vector registered under key,
empty when the key is absent. -/
def lookupVec (reg : List (String × List ClientInfo)) (key : String) : List ClientInfo :=
  match reg.find? (fun e => e.1 == key) with
  | some e => e.2
  | none => []

/-- Store vec as the vector under key, replacing the previous one or adding
the entry when the key is absent. -/
def setVec (reg : List (String × List ClientInfo)) (key : String)
    (vec : List ClientInfo) : List (String × List ClientInfo) :=
  match reg with
  | [] => [(key, vec)]
  | e :: rest => if e.1 == key then (key, vec) :: rest else e :: setVec rest key vec

/-- One iteration of the daemon loop of src/shm_ipc_with_SD/app/producer.cc
over one received datagram msg: tokenize, dispatch on the first token. On
REGISTER, the next three tokens (empty when missing) name the service key,
the client socket and the shared memory name; the daemon first sends one
PEER record per participant already under the key to the new client, then
appends the new participant, then sends a PEER record for the new
participant to every participant whose socket differs from the new client's.
Every other command is logged and ignored. Returns the new registry and the
datagrams sent, as (destination socket, payload) pairs in send order. -/
def brokerStep (reg : List (String × List ClientInfo)) (msg : String) :
    List (String × List ClientInfo) × List (String × String) :=
  let toks := tokenize msg
  let cmd := toks.getD 0 ""
  if cmd = "REGISTER" then
    let key := toks.getD 1 ""
    let client_sock := toks.getD 2 ""
    let shm := toks.getD 3 ""
    let vec := lookupVec reg key
    let replies := vec.map (fun p => (client_sock, "PEER " ++ key ++ " " ++ p.sock ++ " " ++ p.shm))
    let vec2 := vec ++ [{ sock := client_sock, shm := shm }]
    let notifies := (vec2.filter (fun p => !(p.sock == client_sock))).map
      (fun p => (p.sock, "PEER " ++ key ++ " " ++ client_sock ++ " " ++ shm))
    (setVec reg key vec2, replies ++ notifies)
  else
    (reg, [])

/-- Reading back the slot just written. -/
theorem sread_set_self (slots : List Slot) (i : Nat) (v : Slot) (h : i < slots.length) :
    sread (slots.set i v) i = v := by
  simp [sread, List.getD_eq_getElem?_getD, List.getElem?_set_self h]

/-- Reading a slot other than the one written. -/
theorem sread_set_ne (slots : List Slot) (i j : Nat) (v : Slot) (h : i ≠ j) :
    sread (slots.set i v) j = sread slots j := by
  simp [sread, List.getD_eq_getElem?_getD, List.getElem?_set_ne h]

/-- Two in-range offsets from the same base land on the same ring index only
when they are equal. -/
theorem add_mod_inj (h N j L : Nat) (hj : j < N) (hL : L < N)
    (heq : (h + j) % N = (h + L) % N) : j = L := by
  have hmod : j % N = L % N := Nat.ModEq.add_left_cancel' h heq
  rwa [Nat.mod_eq_of_lt hj, Nat.mod_eq_of_lt hL] at hmod

/-- Value of write_message when both waits succeed and the payload fits. -/
theorem write_message_ok_eq (r : SharedRing) (data : List Nat) (len : Nat)
    (hm : len ≤ r.slot_size) :
    write_message SemRes.ok SemRes.ok r data len =
      (true,
       { r with
         slots := writeSlot r.slots r.hdr.tail len data
         hdr := { r.hdr with tail := (r.hdr.tail + 1) % r.hdr.slot_count }
         semFree := r.semFree - 1
         semMutex := r.semMutex - 1 + 1
         semFilled := r.semFilled + 1 }) := by
  simp [write_message, Nat.not_lt.mpr hm]

/-- Value of read_message when both waits succeed. -/
theorem read_message_ok_eq (r : SharedRing) (out : List Nat) :
    read_message SemRes.ok SemRes.ok r out =
      (true,
       { r with
         hdr := { r.hdr with head := (r.hdr.head + 1) % r.hdr.slot_count }
         semFilled := r.semFilled - 1
         semMutex := r.semMutex - 1 + 1
         semFree := r.semFree + 1 },
       (sread r.slots r.hdr.head).payload.take (sread r.slots r.hdr.head).len) := by
  simp [read_message]

/-- The invariant tying a reachable handle state to the queue pending of the
messages written but not yet read, oldest first. -/
structure RingInv (r : SharedRing) (pending : List (List Nat)) : Prop where
  npos : 1 ≤ r.hdr.slot_count
  hlen : r.slots.length = r.hdr.slot_count
  hhead : r.hdr.head < r.hdr.slot_count
  htail : r.hdr.tail = (r.hdr.head + pending.length) % r.hdr.slot_count
  hmutex : r.semMutex = 1
  hfilled : r.semFilled = pending.length
  hfree : r.semFree = r.hdr.slot_count - pending.length
  hcap : pending.length ≤ r.hdr.slot_count
  hpayload : ∀ i, i < r.slots.length → (sread r.slots i).payload.length = r.slot_size
  hcontent : ∀ j, j < pending.length →
    (sread r.slots ((r.hdr.head + j) % r.hdr.slot_count)).len = (pending.getD j []).length ∧
    (sread r.slots ((r.hdr.head + j) % r.hdr.slot_count)).payload.take
      (pending.getD j []).length = pending.getD j []

/-- A freshly created ring satisfies the invariant with no pending message. -/
theorem ringInv_createRing (N S : Nat) (hN : 1 ≤ N) : RingInv (createRing N S) [] := by
  refine ⟨hN, ?_, ?_, ?_, rfl, rfl, ?_, ?_, ?_, ?_⟩
  · simp [createRing]
  · exact hN
  · simp [createRing]
  · simp [createRing]
  · simp [createRing]
  · intro i hi
    simp only [createRing, List.length_replicate] at hi
    simp [createRing, sread, List.getD_eq_getElem?_getD, List.getElem?_replicate, hi]
  · intro j hj
    simp at hj

/-- A successful write preserves the invariant and enqueues the message. -/
theorem write_inv (r : SharedRing) (pending : List (List Nat)) (m : List Nat)
    (inv : RingInv r pending) (hm : m.length ≤ r.slot_size)
    (hroom : 1 ≤ r.semFree) :
    (write_message SemRes.ok SemRes.ok r m m.length).1 = true ∧
    RingInv (write_message SemRes.ok SemRes.ok r m m.length).2 (pending ++ [m]) := by
  obtain ⟨npos, hlen, hhead, htail, hmutex, hfilled, hfree, hcap, hpayload, hcontent⟩ := inv
  have hLN : pending.length < r.hdr.slot_count := by omega
  have htlt : r.hdr.tail < r.hdr.slot_count := by
    rw [htail]; exact Nat.mod_lt _ (by omega)
  have htlen : r.hdr.tail < r.slots.length := by omega
  rw [write_message_ok_eq r m m.length hm]
  refine ⟨rfl, ?_, ?_, ?_, ?_, ?_, ?_, ?_, ?_, ?_, ?_⟩
  case mk.refine_1 => exact npos
  case mk.refine_2 => simp [writeSlot, List.length_set, hlen]
  case mk.refine_3 => exact hhead
  case mk.refine_4 =>
    simp only [htail, List.length_append, List.length_singleton, Nat.mod_add_mod,
      Nat.add_assoc]
  case mk.refine_5 =>
    show r.semMutex - 1 + 1 = 1
    omega
  case mk.refine_6 => simp [hfilled]
  case mk.refine_7 =>
    show r.semFree - 1 = r.hdr.slot_count - (pending ++ [m]).length
    simp only [List.length_append, List.length_singleton]
    omega
  case mk.refine_8 =>
    simp only [List.length_append, List.length_singleton]
    omega
  case mk.refine_9 =>
    intro i hi
    simp only [writeSlot, List.length_set] at hi
    by_cases hit : r.hdr.tail = i
    · subst hit
      rw [writeSlot, sread_set_self _ _ _ htlen]
      have hp := hpayload r.hdr.tail htlen
      simp only [List.length_append, List.length_take, List.length_drop, hp]
      have : m.length ⊓ m.length = m.length := Nat.min_self _
      simp only [List.length_take, Nat.min_self]
      omega
    · rw [writeSlot, sread_set_ne _ _ _ _ hit]
      exact hpayload i hi
  · intro j hj
    simp only [List.length_append, List.length_singleton] at hj
    by_cases hjL : j < pending.length
    · have hne : r.hdr.tail ≠ (r.hdr.head + j) % r.hdr.slot_count := by
        intro hEq
        rw [htail] at hEq
        have := add_mod_inj r.hdr.head r.hdr.slot_count pending.length j hLN
          (by omega) hEq
        omega
      rw [writeSlot, sread_set_ne _ _ _ _ hne,
          List.getD_append _ _ _ _ hjL]
      exact hcontent j hjL
    · have hjEq : j = pending.length := by omega
      subst hjEq
      have hidx : (r.hdr.head + pending.length) % r.hdr.slot_count = r.hdr.tail := htail.symm
      rw [hidx, writeSlot, sread_set_self _ _ _ htlen,
          List.getD_append_right _ _ _ _ (Nat.le_refl _), Nat.sub_self]
      simp only [List.getD_cons_zero]
      constructor
      · simp
      · rw [List.take_length m]
        have := List.take_left m ((sread r.slots r.hdr.tail).payload.drop m.length)
        simpa using this

/-- A successful read preserves the invariant, dequeues the oldest message
and returns exactly its bytes. -/
theorem read_inv (r : SharedRing) (p0 : List Nat) (ptl : List (List Nat))
    (inv : RingInv r (p0 :: ptl)) :
    (read_message SemRes.ok SemRes.ok r []).1 = true ∧
    RingInv (read_message SemRes.ok SemRes.ok r []).2.1 ptl ∧
    (read_message SemRes.ok SemRes.ok r []).2.2 = p0 := by
  obtain ⟨npos, hlen, hhead, htail, hmutex, hfilled, hfree, hcap, hpayload, hcontent⟩ := inv
  have hhm : r.hdr.head % r.hdr.slot_count = r.hdr.head := Nat.mod_eq_of_lt hhead
  have hc0 := hcontent 0 (by simp)
  rw [Nat.add_zero, hhm] at hc0
  simp only [List.getD_cons_zero] at hc0
  rw [read_message_ok_eq r []]
  refine ⟨rfl, ?_, ?_⟩
  · refine ⟨npos, hlen, ?_, ?_, ?_, ?_, ?_, ?_, hpayload, ?_⟩
    · exact Nat.mod_lt _ (by omega)
    · show r.hdr.tail = ((r.hdr.head + 1) % r.hdr.slot_count + ptl.length) % r.hdr.slot_count
      rw [htail, Nat.mod_add_mod]
      simp only [List.length_cons]
      congr 1
      omega
    · show r.semMutex - 1 + 1 = 1
      omega
    · show r.semFilled - 1 = ptl.length
      simp only [List.length_cons] at hfilled
      omega
    · show r.semFree + 1 = r.hdr.slot_count - ptl.length
      simp only [List.length_cons] at hfree hcap
      omega
    · show ptl.length ≤ r.hdr.slot_count
      simp only [List.length_cons] at hcap
      omega
    · intro j hj
      have hstep : ((r.hdr.head + 1) % r.hdr.slot_count + j) % r.hdr.slot_count
          = (r.hdr.head + (j + 1)) % r.hdr.slot_count := by
        rw [Nat.mod_add_mod]
        congr 1
        omega
      have hcj := hcontent (j + 1) (by simp; omega)
      simp only [List.getD_cons_succ] at hcj
      show (sread r.slots (((r.hdr.head + 1) % r.hdr.slot_count + j) % r.hdr.slot_count)).len
            = (ptl.getD j []).length ∧
          (sread r.slots (((r.hdr.head + 1) % r.hdr.slot_count + j) % r.hdr.slot_count)).payload.take
            (ptl.getD j []).length = ptl.getD j []
      rw [hstep]
      exact hcj
  · show (sread r.slots r.hdr.head).payload.take (sread r.slots r.hdr.head).len = p0
    rw [hc0.1]
    exact hc0.2

/-- Running a list of successful calls from a state satisfying the
invariant: the collected read outputs are exactly the first readsCount
entries of the pending queue followed by the written messages, in order,
and the final state satisfies the invariant for what remains queued. -/
theorem run_spec (ops : List RingOp) (r2 : SharedRing) :
    ∀ (r : SharedRing) (pending : List (List Nat)) (outs : List (List Nat)),
    RingInv r pending → run r ops = some (r2, outs) →
    RingInv r2 ((pending ++ writesOf ops).drop (readsCount ops)) ∧
    outs = (pending ++ writesOf ops).take (readsCount ops) ∧
    readsCount ops ≤ pending.length + (writesOf ops).length ∧
    r2.hdr.slot_count = r.hdr.slot_count := by
  induction ops with
  | nil =>
      intro r pending outs inv h
      simp only [run, Option.some.injEq, Prod.mk.injEq] at h
      obtain ⟨h1, h2⟩ := h
      subst h1
      subst h2
      simpa [writesOf, readsCount] using inv
  | cons op rest ih =>
      intro r pending outs inv h
      cases op with
      | write m =>
          by_cases hc : m.length ≤ r.slot_size ∧ 1 ≤ r.semFree ∧ 1 ≤ r.semMutex
          · have hstep : step r (RingOp.write m) =
                some ((write_message SemRes.ok SemRes.ok r m m.length).2, none) := by
              simp [step, hc]
            simp only [run, hstep] at h
            cases hrun : run (write_message SemRes.ok SemRes.ok r m m.length).2 rest with
            | none => rw [hrun] at h; exact absurd h (by simp)
            | some qr =>
                obtain ⟨r2q, outsq⟩ := qr
                rw [hrun] at h
                simp only [Option.toList, List.nil_append, Option.some.injEq,
                  Prod.mk.injEq] at h
                obtain ⟨hr2, houts⟩ := h
                subst hr2
                subst houts
                obtain ⟨hm, hfr, hmx⟩ := hc
                obtain ⟨-, inv1⟩ := write_inv r pending m inv hm hfr
                obtain ⟨ih1, ih2, ih3, ih4⟩ := ih _ _ _ inv1 hrun
                simp only [writesOf, readsCount]
                have hsplit : pending ++ m :: writesOf rest = (pending ++ [m]) ++ writesOf rest := by
                  simp
                rw [hsplit]
                rw [write_message_ok_eq r m m.length hm] at ih4
                refine ⟨ih1, ih2, ?_, ih4⟩
                simp only [List.length_append, List.length_singleton] at ih3
                simp only [List.length_cons]
                omega
          · have hstep : step r (RingOp.write m) = none := by
              simp only [step, if_neg hc]
            simp only [run, hstep] at h
            exact absurd h (by simp)
      | read =>
          by_cases hc : 1 ≤ r.semFilled ∧ 1 ≤ r.semMutex
          · cases pending with
            | nil =>
                exfalso
                have hf := inv.hfilled
                simp only [List.length_nil] at hf
                omega
            | cons p0 ptl =>
                obtain ⟨-, inv1, hout⟩ := read_inv r p0 ptl inv
                have hstep : step r RingOp.read =
                    some ((read_message SemRes.ok SemRes.ok r []).2.1,
                          some (read_message SemRes.ok SemRes.ok r []).2.2) := by
                  simp [step, hc]
                simp only [run, hstep] at h
                cases hrun : run (read_message SemRes.ok SemRes.ok r []).2.1 rest with
                | none => rw [hrun] at h; exact absurd h (by simp)
                | some qr =>
                    obtain ⟨r2q, outsq⟩ := qr
                    rw [hrun] at h
                    simp only [Option.toList, Option.some.injEq, Prod.mk.injEq] at h
                    obtain ⟨hr2, houts⟩ := h
                    subst hr2
                    subst houts
                    obtain ⟨ih1, ih2, ih3, ih4⟩ := ih _ _ _ inv1 hrun
                    simp only [writesOf, readsCount]
                    have hplus : 1 + readsCount rest = readsCount rest + 1 :=
                      Nat.add_comm 1 (readsCount rest)
                    rw [hplus]
                    simp only [List.cons_append, List.drop_succ_cons, List.take_succ_cons,
                      List.length_cons]
                    rw [read_message_ok_eq r []] at ih4
                    refine ⟨ih1, ?_, ?_, ih4⟩
                    · rw [hout, ih2]
                      simp
                    · omega
          · have hstep : step r RingOp.read = none := by
              simp only [step, if_neg hc]
            simp only [run, hstep] at h
            exact absurd h (by simp)

/-- C1: for a ring created with slot_count N ≥ 1, any interleaving of
successful write_message and read_message calls delivers to the successive
successful reads exactly the written payloads, bitwise equal and in write
order (FIFO), one message per successful read. -/
theorem c1_fifo_order (N S : Nat) (hN : 1 ≤ N) (ops : List RingOp)
    (r2 : SharedRing) (outs : List (List Nat))
    (h : run (createRing N S) ops = some (r2, outs)) :
    outs = (writesOf ops).take (readsCount ops) ∧ outs.length = readsCount ops := by
  obtain ⟨-, houts, hle, -⟩ := run_spec ops r2 (createRing N S) [] outs
    (ringInv_createRing N S hN) h
  simp only [List.nil_append] at houts hle
  have hle2 : readsCount ops ≤ (writesOf ops).length := by
    simpa using hle
  refine ⟨houts, ?_⟩
  rw [houts, List.length_take]
  exact min_eq_left hle2

/-- Witness for C1 at N = 2, S = 4 with two writes followed by two reads. -/
theorem c1_fifo_order_witness :
    ([[1, 2], [3]] : List (List Nat)) =
      (writesOf [RingOp.write [1, 2], RingOp.write [3], RingOp.read, RingOp.read]).take
        (readsCount [RingOp.write [1, 2], RingOp.write [3], RingOp.read, RingOp.read]) ∧
    ([[1, 2], [3]] : List (List Nat)).length =
      readsCount [RingOp.write [1, 2], RingOp.write [3], RingOp.read, RingOp.read] :=
  c1_fifo_order 2 4 (by decide)
    [RingOp.write [1, 2], RingOp.write [3], RingOp.read, RingOp.read]
    { slot_count := 2, slot_size := 4,
      hdr := { magic := 0xA1B2C3D4, version := 1, slot_count := 2, slot_size := 4,
               head := 0, tail := 0 },
      slots := [{ len := 2, payload := [1, 2, 0, 0] }, { len := 1, payload := [3, 0, 0, 0] }],
      semFree := 2, semFilled := 0, semMutex := 1 }
    [[1, 2], [3]] (by decide)

/-- C2: a write whose payload exceeds slot_size fails before any semaphore
operation, returning the state entirely unchanged whatever the wait
outcomes would have been; a payload of exactly slot_size bytes succeeds
when the waits succeed. -/
theorem c2_payload_too_large (r : SharedRing) (data : List Nat) (len : Nat) :
    (r.slot_size < len → ∀ fOut mOut, write_message fOut mOut r data len = (false, r)) ∧
    (len = r.slot_size → (write_message SemRes.ok SemRes.ok r data len).1 = true) := by
  constructor
  · intro hlt fOut mOut
    simp [write_message, hlt]
  · intro hEq
    rw [write_message_ok_eq r data len (le_of_eq hEq)]

/-- Witness for C2 on a fresh ring with slot_size 4: a 5-byte write fails
leaving the state untouched and a 4-byte write succeeds. -/
theorem c2_payload_too_large_witness :
    write_message SemRes.ok SemRes.ok (createRing 2 4) [9, 9, 9, 9, 9] 5 =
      (false, createRing 2 4) ∧
    (write_message SemRes.ok SemRes.ok (createRing 2 4) [8, 8, 8, 8] 4).1 = true :=
  ⟨(c2_payload_too_large (createRing 2 4) [9, 9, 9, 9, 9] 5).1 (by decide) SemRes.ok SemRes.ok,
   (c2_payload_too_large (createRing 2 4) [8, 8, 8, 8] 4).2 (by decide)⟩

/-- C3 counterexample: on a fresh ring with N = 1 one successful unread
write leaves filled = 1 while (tail - head) mod N = (0 + (1 - 0)) % 1 = 0,
so k does not equal (tail - head) mod N when the ring is full. -/
theorem c3_counterexample :
    run (createRing 1 1) [RingOp.write [5]] =
      some ({ slot_count := 1, slot_size := 1,
              hdr := { magic := 0xA1B2C3D4, version := 1, slot_count := 1, slot_size := 1,
                       head := 0, tail := 0 },
              slots := [{ len := 1, payload := [5] }],
              semFree := 0, semFilled := 1, semMutex := 1 }, []) ∧
    ¬ (1 = (0 + (1 - 0)) % 1) := by decide

/-- C3 (amended): after any successful interleaving from a fresh ring with
N ≥ 1 slots, with k the number of unread writes, the filled semaphore is k
and the free semaphore is N - k; the pointer difference (tail - head) mod N
(computed as (tail + (N - head)) % N) equals k mod N, hence equals k
whenever k < N but is 0, not N, when the ring is full. -/
theorem c3_semaphore_invariant (N S : Nat) (hN : 1 ≤ N) (ops : List RingOp)
    (r2 : SharedRing) (outs : List (List Nat))
    (h : run (createRing N S) ops = some (r2, outs)) :
    r2.semFilled = (writesOf ops).length - readsCount ops ∧
    r2.semFree = N - ((writesOf ops).length - readsCount ops) ∧
    (r2.hdr.tail + (N - r2.hdr.head)) % N = ((writesOf ops).length - readsCount ops) % N := by
  obtain ⟨inv, -, -, hsc⟩ := run_spec ops r2 (createRing N S) [] outs
    (ringInv_createRing N S hN) h
  have hN2 : r2.hdr.slot_count = N := hsc
  have hk : (([] ++ writesOf ops).drop (readsCount ops)).length
      = (writesOf ops).length - readsCount ops := by
    simp [List.length_drop]
  refine ⟨?_, ?_, ?_⟩
  · rw [inv.hfilled, hk]
  · rw [inv.hfree, hk, hN2]
  · have hhd : r2.hdr.head < N := by rw [← hN2]; exact inv.hhead
    have htl := inv.htail
    rw [hN2, hk] at htl
    rw [htl, Nat.mod_add_mod]
    have harith : r2.hdr.head + ((writesOf ops).length - readsCount ops) + (N - r2.hdr.head)
        = ((writesOf ops).length - readsCount ops) + N := by
      omega
    rw [harith, Nat.add_mod_right]

/-- Witness for C3 (amended) at N = 2, S = 4 after two writes and one read:
k = 1, filled = 1, free = 1, (tail + (N - head)) % N = 1. -/
theorem c3_semaphore_invariant_witness :
    ({ slot_count := 2, slot_size := 4,
       hdr := { magic := 0xA1B2C3D4, version := 1, slot_count := 2, slot_size := 4,
                head := 1, tail := 0 },
       slots := [{ len := 2, payload := [1, 2, 0, 0] }, { len := 1, payload := [3, 0, 0, 0] }],
       semFree := 1, semFilled := 1, semMutex := 1 } : SharedRing).semFilled =
      (writesOf [RingOp.write [1, 2], RingOp.write [3], RingOp.read]).length -
        readsCount [RingOp.write [1, 2], RingOp.write [3], RingOp.read] ∧
    ({ slot_count := 2, slot_size := 4,
       hdr := { magic := 0xA1B2C3D4, version := 1, slot_count := 2, slot_size := 4,
                head := 1, tail := 0 },
       slots := [{ len := 2, payload := [1, 2, 0, 0] }, { len := 1, payload := [3, 0, 0, 0] }],
       semFree := 1, semFilled := 1, semMutex := 1 } : SharedRing).semFree =
      2 - ((writesOf [RingOp.write [1, 2], RingOp.write [3], RingOp.read]).length -
        readsCount [RingOp.write [1, 2], RingOp.write [3], RingOp.read]) ∧
    (({ slot_count := 2, slot_size := 4,
        hdr := { magic := 0xA1B2C3D4, version := 1, slot_count := 2, slot_size := 4,
                 head := 1, tail := 0 },
        slots := [{ len := 2, payload := [1, 2, 0, 0] }, { len := 1, payload := [3, 0, 0, 0] }],
        semFree := 1, semFilled := 1, semMutex := 1 } : SharedRing).hdr.tail +
      (2 - ({ slot_count := 2, slot_size := 4,
              hdr := { magic := 0xA1B2C3D4, version := 1, slot_count := 2, slot_size := 4,
                       head := 1, tail := 0 },
              slots := [{ len := 2, payload := [1, 2, 0, 0] }, { len := 1, payload := [3, 0, 0, 0] }],
              semFree := 1, semFilled := 1, semMutex := 1 } : SharedRing).hdr.head)) % 2 =
      ((writesOf [RingOp.write [1, 2], RingOp.write [3], RingOp.read]).length -
        readsCount [RingOp.write [1, 2], RingOp.write [3], RingOp.read]) % 2 :=
  c3_semaphore_invariant 2 4 (by decide)
    [RingOp.write [1, 2], RingOp.write [3], RingOp.read]
    { slot_count := 2, slot_size := 4,
      hdr := { magic := 0xA1B2C3D4, version := 1, slot_count := 2, slot_size := 4,
               head := 1, tail := 0 },
      slots := [{ len := 2, payload := [1, 2, 0, 0] }, { len := 1, payload := [3, 0, 0, 0] }],
      semFree := 1, semFilled := 1, semMutex := 1 }
    [[1, 2]] (by decide)

/-- C9: when the wait on free succeeds (consuming a token) and the wait on
mutex then fails with a non-signal error, write_message returns false
without posting free back: free ends one below its value before the call,
and the slots, head, tail, filled count and mutex count are untouched. -/
theorem c9_mutex_failure_leaks_free (r : SharedRing) (data : List Nat) (len : Nat)
    (hlen : len ≤ r.slot_size) (hfree : 1 ≤ r.semFree) :
    write_message SemRes.ok SemRes.err r data len =
      (false, { r with semFree := r.semFree - 1 }) ∧
    (write_message SemRes.ok SemRes.err r data len).2.semFree + 1 = r.semFree ∧
    (write_message SemRes.ok SemRes.err r data len).2.hdr = r.hdr ∧
    (write_message SemRes.ok SemRes.err r data len).2.slots = r.slots ∧
    (write_message SemRes.ok SemRes.err r data len).2.semFilled = r.semFilled ∧
    (write_message SemRes.ok SemRes.err r data len).2.semMutex = r.semMutex := by
  have hmain : write_message SemRes.ok SemRes.err r data len =
      (false, { r with semFree := r.semFree - 1 }) := by
    simp [write_message, Nat.not_lt.mpr hlen]
  refine ⟨hmain, ?_, ?_, ?_, ?_, ?_⟩
  · rw [hmain]
    show r.semFree - 1 + 1 = r.semFree
    omega
  all_goals rw [hmain]

/-- Witness for C9 on a fresh ring with two free slots and a 1-byte write. -/
theorem c9_mutex_failure_leaks_free_witness :
    write_message SemRes.ok SemRes.err (createRing 2 4) [1] 1 =
      (false, { createRing 2 4 with semFree := (createRing 2 4).semFree - 1 }) ∧
    (write_message SemRes.ok SemRes.err (createRing 2 4) [1] 1).2.semFree + 1 =
      (createRing 2 4).semFree ∧
    (write_message SemRes.ok SemRes.err (createRing 2 4) [1] 1).2.hdr = (createRing 2 4).hdr ∧
    (write_message SemRes.ok SemRes.err (createRing 2 4) [1] 1).2.slots = (createRing 2 4).slots ∧
    (write_message SemRes.ok SemRes.err (createRing 2 4) [1] 1).2.semFilled =
      (createRing 2 4).semFilled ∧
    (write_message SemRes.ok SemRes.err (createRing 2 4) [1] 1).2.semMutex =
      (createRing 2 4).semMutex :=
  c9_mutex_failure_leaks_free (createRing 2 4) [1] 1 (by decide) (by decide)

/-- C10: the create path validates nothing: slot_count = 0 still yields a
live handle whose header stores slot_count 0 (given the OS calls succeed),
and a subsequent successful write or read advances the pointer by
(idx + 1) % 0 — in C++ a modulo by zero and undefined behaviour, total in
this Nat model; for every slot_count ≥ 1 the same modulo keeps the advanced
pointer inside [0, slot_count) after every operation. -/
theorem c10_create_no_validation :
    (∀ S : Nat, create_or_open_create true 0 S = some (createRing 0 S) ∧
      (createRing 0 S).hdr.slot_count = 0 ∧
      (write_message SemRes.ok SemRes.ok (createRing 0 S) [] 0).2.hdr.tail = (0 + 1) % 0 ∧
      (read_message SemRes.ok SemRes.ok (createRing 0 S) []).2.1.hdr.head = (0 + 1) % 0) ∧
    (∀ (r : SharedRing) (data : List Nat) (len : Nat), 1 ≤ r.hdr.slot_count →
      len ≤ r.slot_size →
      (write_message SemRes.ok SemRes.ok r data len).2.hdr.tail < r.hdr.slot_count ∧
      (write_message SemRes.ok SemRes.ok r data len).2.hdr.head = r.hdr.head) ∧
    (∀ (r : SharedRing) (out : List Nat), 1 ≤ r.hdr.slot_count →
      (read_message SemRes.ok SemRes.ok r out).2.1.hdr.head < r.hdr.slot_count ∧
      (read_message SemRes.ok SemRes.ok r out).2.1.hdr.tail = r.hdr.tail) := by
  refine ⟨?_, ?_, ?_⟩
  · intro S
    refine ⟨by simp [create_or_open_create], rfl, ?_, ?_⟩
    · rw [write_message_ok_eq (createRing 0 S) [] 0 (Nat.zero_le _)]
      rfl
    · rw [read_message_ok_eq (createRing 0 S) []]
      rfl
  · intro r data len hN hlen
    rw [write_message_ok_eq r data len hlen]
    exact ⟨Nat.mod_lt _ (by omega), rfl⟩
  · intro r out hN
    rw [read_message_ok_eq r out]
    exact ⟨Nat.mod_lt _ (by omega), rfl⟩

/-- Witness for C10 at S = 1 for the zero-slot part and on a fresh 2-slot
ring for the in-range part. -/
theorem c10_create_no_validation_witness :
    (create_or_open_create true 0 1 = some (createRing 0 1) ∧
      (createRing 0 1).hdr.slot_count = 0 ∧
      (write_message SemRes.ok SemRes.ok (createRing 0 1) [] 0).2.hdr.tail = (0 + 1) % 0 ∧
      (read_message SemRes.ok SemRes.ok (createRing 0 1) []).2.1.hdr.head = (0 + 1) % 0) ∧
    ((write_message SemRes.ok SemRes.ok (createRing 2 4) [7] 1).2.hdr.tail <
        (createRing 2 4).hdr.slot_count ∧
      (write_message SemRes.ok SemRes.ok (createRing 2 4) [7] 1).2.hdr.head =
        (createRing 2 4).hdr.head) ∧
    ((read_message SemRes.ok SemRes.ok (createRing 2 4) []).2.1.hdr.head <
        (createRing 2 4).hdr.slot_count ∧
      (read_message SemRes.ok SemRes.ok (createRing 2 4) []).2.1.hdr.tail =
        (createRing 2 4).hdr.tail) :=
  ⟨c10_create_no_validation.1 1,
   c10_create_no_validation.2.1 (createRing 2 4) [7] 1 (by decide) (by decide),
   c10_create_no_validation.2.2 (createRing 2 4) [] (by decide)⟩

/-- C4: the two sets of ring operations are not extensionally equal; this
evaluates both at a concrete failing input. On a fresh 2-slot ring with a
fitting 2-byte payload and both semaphore waits succeeding, src/ipc's
write_message stores the message and returns true, while part_001's
write_message consumes the free token, writes nothing and returns false;
with a failed wait on free the results are exactly swapped (src/ipc fails,
part_001 proceeds and returns true); read_message diverges the same way on
the wait for filled. -/
theorem c4_implementations_diverge :
    (write_message SemRes.ok SemRes.ok (createRing 2 4) [1, 2] 2).1 = true ∧
    (write_message_p1 SemRes.ok SemRes.ok (createRing 2 4) [1, 2] 2).1 = false ∧
    (write_message_p1 SemRes.ok SemRes.ok (createRing 2 4) [1, 2] 2).2.slots =
      (createRing 2 4).slots ∧
    (write_message_p1 SemRes.ok SemRes.ok (createRing 2 4) [1, 2] 2).2.semFree + 1 =
      (createRing 2 4).semFree ∧
    (write_message SemRes.err SemRes.ok (createRing 2 4) [1, 2] 2).1 = false ∧
    (write_message_p1 SemRes.err SemRes.ok (createRing 2 4) [1, 2] 2).1 = true ∧
    (read_message SemRes.ok SemRes.ok
      (write_message SemRes.ok SemRes.ok (createRing 2 4) [1, 2] 2).2 []).1 = true ∧
    (read_message_p1 SemRes.ok SemRes.ok
      (write_message SemRes.ok SemRes.ok (createRing 2 4) [1, 2] 2).2 []).1 = false := by
  decide

/-- C6 counterexample: for R = "/ipc_demo_1234" the code derives the free
semaphore name "/_ipc_demo_1234_free", not "/ipc_demo_1234_free" as the
claim states: sanitize_sem replaces the leading slash of R too before
prepending a new one. -/
theorem c6_counterexample :
    sem_free_name "/ipc_demo_1234" = "/_ipc_demo_1234_free" ∧
    sem_free_name "/ipc_demo_1234" ≠ "/ipc_demo_1234_free" := by
  decide

/-- C6 (amended): each derived name is one slash followed by R ++ suffix in
which EVERY slash (the leading slash of R included) has been replaced by an
underscore; consequently each name begins with a slash and contains no
other slash. -/
theorem c6_sem_names (R : String) :
    sem_free_name R = String.mk ('/' :: (R ++ "_free").data.map sanChar) ∧
    sem_filled_name R = String.mk ('/' :: (R ++ "_filled").data.map sanChar) ∧
    sem_mutex_name R = String.mk ('/' :: (R ++ "_mutex").data.map sanChar) ∧
    (sem_free_name R).data.head? = some '/' ∧
    (sem_filled_name R).data.head? = some '/' ∧
    (sem_mutex_name R).data.head? = some '/' ∧
    (∀ c ∈ (sem_free_name R).data.tail, c ≠ '/') ∧
    (∀ c ∈ (sem_filled_name R).data.tail, c ≠ '/') ∧
    (∀ c ∈ (sem_mutex_name R).data.tail, c ≠ '/') := by
  refine ⟨rfl, rfl, rfl, rfl, rfl, rfl, ?_, ?_, ?_⟩ <;>
  · intro c hc
    simp only [sem_free_name, sem_filled_name, sem_mutex_name, sanitize_sem,
      List.tail_cons] at hc
    obtain ⟨a, -, ha⟩ := List.mem_map.mp hc
    intro hcEq
    subst hcEq
    unfold sanChar at ha
    by_cases h7 : a = '/'
    · rw [if_pos h7] at ha
      exact absurd ha (by decide)
    · rw [if_neg h7] at ha
      exact h7 ha

/-- C7 counterexample: a region of exactly 52 bytes (the header alone) is
smaller than the computed total 52 + 1 * (4 + 8) = 64 for slot_count 1 and
slot_size 8, and the src/ipc attach check rejects it, yet part_001's
attach-mode init_map accepts it — the claim fails on part_001. -/
theorem c7_counterexample :
    init_map_attach_p1 1 8 52 true = true ∧
    52 < headerSize + 1 * (4 + 8) ∧
    init_map_attach 1 8 52 true = false := by
  decide

/-- C7 (amended): in attach mode the src/ipc implementation fails, and
create_or_open returns no handle, whenever the region size is below the
computed total sizeof(header) + slot_count * (4 + slot_size); the part_001
implementation instead only requires the region to hold the header and
otherwise proceeds to the magic check, accepting regions smaller than the
computed total. -/
theorem c7_attach_region_too_small (slot_count slot_size regionSize : Nat) (magicOk : Bool) :
    (regionSize < headerSize + slot_count * (4 + slot_size) →
      init_map_attach slot_count slot_size regionSize magicOk = false ∧
      ∀ (semOk : Bool) (rest : SharedRing),
        create_or_open_attach slot_count slot_size regionSize magicOk semOk rest = none) ∧
    (headerSize ≤ regionSize →
      init_map_attach_p1 slot_count slot_size regionSize magicOk = magicOk) := by
  constructor
  · intro hlt
    have h1 : init_map_attach slot_count slot_size regionSize magicOk = false := by
      simp [init_map_attach, hlt]
    refine ⟨h1, fun semOk rest => ?_⟩
    simp [create_or_open_attach, h1]
  · intro hge
    simp [init_map_attach_p1, Nat.not_lt.mpr hge]

/-- Witness for C7 (amended) on a 52-byte region requested as 1 slot of 8
bytes: the src/ipc check fails and returns no handle, part_001 accepts. -/
theorem c7_attach_region_too_small_witness :
    (init_map_attach 1 8 52 true = false ∧
      ∀ (semOk : Bool) (rest : SharedRing),
        create_or_open_attach 1 8 52 true semOk rest = none) ∧
    init_map_attach_p1 1 8 52 true = true :=
  ⟨(c7_attach_region_too_small 1 8 52 true).1 (by decide),
   (c7_attach_region_too_small 1 8 52 true).2 (by decide)⟩

/-- Looking up the key just stored returns the stored vector. -/
theorem lookupVec_setVec (reg : List (String × List ClientInfo)) (key : String)
    (vec : List ClientInfo) : lookupVec (setVec reg key vec) key = vec := by
  induction reg with
  | nil => simp [setVec, lookupVec, List.find?]
  | cons e rest ih =>
      cases hbe : (e.1 == key) with
      | true => simp [setVec, lookupVec, List.find?, hbe]
      | false =>
          simp only [setVec, hbe, Bool.false_eq_true, if_false]
          simp only [lookupVec, List.find?, hbe] at ih ⊢
          exact ih

/-- C5 counterexample: with one participant registered under "demo", the
datagram DEREGISTER demo /tmp/a.sock - does not remove the matching record
(the daemon has no DEREGISTER branch): the registry comes back unchanged,
still holding the record, and nothing is sent. -/
theorem c5_counterexample :
    brokerStep [("demo", [{ sock := "/tmp/a.sock", shm := "/r1" }])]
        "DEREGISTER demo /tmp/a.sock -" =
      ([("demo", [{ sock := "/tmp/a.sock", shm := "/r1" }])], []) ∧
    lookupVec (brokerStep [("demo", [{ sock := "/tmp/a.sock", shm := "/r1" }])]
        "DEREGISTER demo /tmp/a.sock -").1 "demo" =
      [{ sock := "/tmp/a.sock", shm := "/r1" }] := by
  decide

/-- C5 (amended): the daemon dispatches only on REGISTER; a DEREGISTER
datagram, like every datagram whose first token is not REGISTER, is logged
and ignored — the registry is returned unchanged and no datagram is sent. -/
theorem c5_non_register_ignored (reg : List (String × List ClientInfo)) (msg : String)
    (h : (tokenize msg).getD 0 "" ≠ "REGISTER") :
    brokerStep reg msg = (reg, []) := by
  dsimp only [brokerStep]
  rw [if_neg h]

/-- Witness for C5 (amended) on a DEREGISTER datagram against a one-entry
registry. -/
theorem c5_non_register_ignored_witness :
    brokerStep [("demo", [{ sock := "/tmp/a.sock", shm := "/r1" }])]
        "DEREGISTER demo /tmp/b.sock -" =
      ([("demo", [{ sock := "/tmp/a.sock", shm := "/r1" }])], []) :=
  c5_non_register_ignored [("demo", [{ sock := "/tmp/a.sock", shm := "/r1" }])]
    "DEREGISTER demo /tmp/b.sock -" (by decide)

/-- C8: on REGISTER of a new client (address not already under the key)
with k participants registered under the key, the daemon sends exactly one
PEER datagram per existing participant, describing it, to the new client's
address, then appends the new record under the key, then sends one PEER
datagram describing the new participant to each of the k existing
participants and to nobody else. -/
theorem c8_register_behaviour (reg : List (String × List ClientInfo))
    (msg key cs shm : String)
    (htok : tokenize msg = ["REGISTER", key, cs, shm])
    (hnew : ∀ p ∈ lookupVec reg key, p.sock ≠ cs) :
    brokerStep reg msg =
      (setVec reg key (lookupVec reg key ++ [{ sock := cs, shm := shm }]),
       (lookupVec reg key).map
           (fun p => (cs, "PEER " ++ key ++ " " ++ p.sock ++ " " ++ p.shm)) ++
         (lookupVec reg key).map
           (fun p => (p.sock, "PEER " ++ key ++ " " ++ cs ++ " " ++ shm))) ∧
    lookupVec (brokerStep reg msg).1 key =
      lookupVec reg key ++ [{ sock := cs, shm := shm }] := by
  have hfilter : (lookupVec reg key ++ [({ sock := cs, shm := shm } : ClientInfo)]).filter
      (fun p => !(p.sock == cs)) = lookupVec reg key := by
    rw [List.filter_append]
    have h1 : (lookupVec reg key).filter (fun p => !(p.sock == cs)) = lookupVec reg key :=
      List.filter_eq_self.mpr (fun p hp => by simpa using hnew p hp)
    have h2 : [({ sock := cs, shm := shm } : ClientInfo)].filter
        (fun p => !(p.sock == cs)) = [] := by simp
    rw [h1, h2, List.append_nil]
  have hmain : brokerStep reg msg =
      (setVec reg key (lookupVec reg key ++ [{ sock := cs, shm := shm }]),
       (lookupVec reg key).map
           (fun p => (cs, "PEER " ++ key ++ " " ++ p.sock ++ " " ++ p.shm)) ++
         (lookupVec reg key).map
           (fun p => (p.sock, "PEER " ++ key ++ " " ++ cs ++ " " ++ shm))) := by
    simp only [brokerStep, htok, List.getD_cons_zero, List.getD_cons_succ]
    rw [if_pos trivial, hfilter]
  refine ⟨hmain, ?_⟩
  rw [hmain]
  exact lookupVec_setVec reg key (lookupVec reg key ++ [{ sock := cs, shm := shm }])

/-- Witness for C8: one producer already registered under "demo", a consumer
registers with ring name "-": the producer's record is sent to the consumer
and the consumer's record to the producer. -/
theorem c8_register_behaviour_witness :
    brokerStep [("demo", [{ sock := "/tmp/p.sock", shm := "/r1" }])]
        "REGISTER demo /tmp/c.sock -" =
      (setVec [("demo", [{ sock := "/tmp/p.sock", shm := "/r1" }])] "demo"
         (lookupVec [("demo", [{ sock := "/tmp/p.sock", shm := "/r1" }])] "demo" ++
           [{ sock := "/tmp/c.sock", shm := "-" }]),
       (lookupVec [("demo", [{ sock := "/tmp/p.sock", shm := "/r1" }])] "demo").map
           (fun p => ("/tmp/c.sock", "PEER " ++ "demo" ++ " " ++ p.sock ++ " " ++ p.shm)) ++
         (lookupVec [("demo", [{ sock := "/tmp/p.sock", shm := "/r1" }])] "demo").map
           (fun p => (p.sock, "PEER " ++ "demo" ++ " " ++ "/tmp/c.sock" ++ " " ++ "-"))) ∧
    lookupVec (brokerStep [("demo", [{ sock := "/tmp/p.sock", shm := "/r1" }])]
        "REGISTER demo /tmp/c.sock -").1 "demo" =
      lookupVec [("demo", [{ sock := "/tmp/p.sock", shm := "/r1" }])] "demo" ++
        [{ sock := "/tmp/c.sock", shm := "-" }] :=
  c8_register_behaviour [("demo", [{ sock := "/tmp/p.sock", shm := "/r1" }])]
    "REGISTER demo /tmp/c.sock -" "demo" "/tmp/c.sock" "-" (by decide) (by decide)

end SharedRingIpc
